import Mathlib

/-!
Shallow embedding of the kanidm/scim proto crate (src/proto/src): the wire
value model and its classification into SCIM attributes (lib.rs), the
schema-checked Entry ↔ typed-resource converters for User and Group
(user.rs, group.rs, macros.rs), the error taxonomy (error.rs), and the
filter grammar (filter.rs plus the grammar described in the spec).

JSON wire values follow serde_json's Value; numbers are modelled as
integers since no conversion in this crate inspects a number's content.
BTreeMap values are modelled as association lists: lookups and removals
take the first matching key, and insertions keep the list sorted by key,
matching BTreeMap behaviour on its invariant (sorted, unique keys).
-/

namespace KanidmScim

/-- A serde_json wire value: null, boolean, number, string, array or object. -/
inductive Value where
  | null
  | bool (b : Bool)
  | num (n : Int)
  | str (s : String)
  | arr (l : List Value)
  | obj (m : List (String × Value))

/-- The closed error taxonomy of error.rs. -/
inductive ScimError where
  | EntryMissingSchema
  | InconsistentMultiValue
  | EmptyMultiValue
  | NestedMultiValue
  | InvalidSingleValue
  | MissingRequiredAttribute
  | InvalidAttribute
  | UnknownLocale
  | UnknownTimezone
deriving DecidableEq, Repr

/-- A scalar wire attribute value (lib.rs ScimSimpleAttr). -/
inductive ScimSimpleAttr where
  | string (s : String)
  | bool (b : Bool)
  | number (n : Int)
deriving DecidableEq, Repr

/-- lib.rs impl TryFrom Value for ScimSimpleAttr: strings, booleans and
numbers are accepted; null, objects and arrays fail InvalidSingleValue. -/
def ScimSimpleAttr.tryFrom : Value → Except ScimError ScimSimpleAttr
  | .str s => .ok (.string s)
  | .bool b => .ok (.bool b)
  | .num n => .ok (.number n)
  | .null => .error .InvalidSingleValue
  | .obj _ => .error .InvalidSingleValue
  | .arr _ => .error .InvalidSingleValue

/-- lib.rs impl Into Value for ScimSimpleAttr. -/
def ScimSimpleAttr.toValue : ScimSimpleAttr → Value
  | .string s => .str s
  | .bool b => .bool b
  | .number n => .num n

/-- A complex (one-level nested) attribute (lib.rs ScimComplexAttr). -/
structure ScimComplexAttr where
  attrs : List (String × ScimSimpleAttr)
deriving DecidableEq, Repr

/-- Rust's collect over an iterator of Results into Result of Vec:
stops at the first error, otherwise returns all successes in order. -/
def collectResults (f : α → Except ScimError β) : List α → Except ScimError (List β)
  | [] => .ok []
  | x :: xs => do
    let y ← f x
    let ys ← collectResults f xs
    .ok (y :: ys)

/-- lib.rs impl TryFrom JsonMap for ScimComplexAttr: convert every entry
value through ScimSimpleAttr, short-circuiting on the first failure. -/
def ScimComplexAttr.tryFromMap (m : List (String × Value)) :
    Except ScimError ScimComplexAttr :=
  (collectResults (fun kv => (ScimSimpleAttr.tryFrom kv.2).map (fun sv => (kv.1, sv))) m).map
    (fun l => ⟨l⟩)

/-- lib.rs impl TryFrom Value for ScimComplexAttr: a non-object fails
InconsistentMultiValue. -/
def ScimComplexAttr.tryFrom : Value → Except ScimError ScimComplexAttr
  | .obj m => ScimComplexAttr.tryFromMap m
  | _ => .error .InconsistentMultiValue

/-- lib.rs impl Into Value for ScimComplexAttr. -/
def ScimComplexAttr.toValue (c : ScimComplexAttr) : Value :=
  .obj (c.attrs.map (fun kv => (kv.1, kv.2.toValue)))

/-- A wire attribute's full shape (lib.rs ScimAttr). -/
inductive ScimAttr where
  | SingleSimple (a : ScimSimpleAttr)
  | SingleComplex (a : ScimComplexAttr)
  | MultiSimple (l : List ScimSimpleAttr)
  | MultiComplex (l : List ScimComplexAttr)
deriving DecidableEq, Repr

/-- lib.rs ScimAttr::len. -/
def ScimAttr.len : ScimAttr → Nat
  | .SingleSimple _ => 1
  | .SingleComplex _ => 1
  | .MultiSimple a => a.length
  | .MultiComplex a => a.length

/-- lib.rs impl TryFrom Value for ScimAttr — the classification algorithm:
an array is classified by peeking element 0 (empty fails EmptyMultiValue,
array head fails NestedMultiValue, object head gives MultiComplex, any
other head gives MultiSimple); a non-array object gives SingleComplex;
anything else gives SingleSimple. -/
def ScimAttr.tryFrom : Value → Except ScimError ScimAttr
  | .arr [] => .error .EmptyMultiValue
  | .arr (.arr _ :: _) => .error .NestedMultiValue
  | .arr (.obj m :: rest) =>
    (collectResults ScimComplexAttr.tryFrom (.obj m :: rest)).map .MultiComplex
  | .arr (v :: rest) =>
    (collectResults ScimSimpleAttr.tryFrom (v :: rest)).map .MultiSimple
  | .obj m => (ScimComplexAttr.tryFromMap m).map .SingleComplex
  | v => (ScimSimpleAttr.tryFrom v).map .SingleSimple

/-- lib.rs impl Into Value for ScimAttr. -/
def ScimAttr.toValue : ScimAttr → Value
  | .SingleSimple ssa => ssa.toValue
  | .SingleComplex sca => sca.toValue
  | .MultiSimple msa => .arr (msa.map ScimSimpleAttr.toValue)
  | .MultiComplex mca => .arr (mca.map ScimComplexAttr.toValue)

/-- True for wire values that are neither arrays nor objects: the values
handled by the final catch-all arms of the classification match. -/
def Value.isElemScalar : Value → Bool
  | .arr _ => false
  | .obj _ => false
  | _ => true

/-- The resource metadata block (lib.rs ScimMeta). The typed-resource
converters pass it through unchanged, so its timestamps and location are
kept as their already-validated textual forms. -/
structure ScimMeta where
  resourceType : String
  created : String
  lastModified : String
  location : String
  version : String
deriving DecidableEq, Repr

/-- The generic resource record (lib.rs ScimEntry). The Uuid id is kept
as its textual form; attrs models the BTreeMap of leftover attributes. -/
structure ScimEntry where
  schemas : List String
  id : String
  externalId : Option String
  meta : Option ScimMeta
  attrs : List (String × ScimAttr)
deriving DecidableEq, Repr

/-- BTreeMap::remove: return the value stored at the first occurrence of
the key (if any) together with the map with that binding removed. -/
def lookupRemove (key : String) : List (String × α) → Option α × List (String × α)
  | [] => (none, [])
  | (k, v) :: rest =>
    if k = key then (some v, rest)
    else
      let r := lookupRemove key rest
      (r.1, (k, v) :: r.2)

/-- Lexicographic order on character lists, by codepoint. -/
def strLtChars : List Char → List Char → Bool
  | _, [] => false
  | [], _ :: _ => true
  | a :: as, b :: bs =>
    if a < b then true
    else if b < a then false
    else strLtChars as bs

/-- Rust's Ord on String: lexicographic byte order of the UTF-8 form,
which coincides with lexicographic codepoint order. -/
def strLt (s t : String) : Bool :=
  strLtChars s.data t.data

/-- BTreeMap::insert on the sorted-association-list model: place the
binding at its ordered position, replacing an existing binding. -/
def insertSorted (key : String) (v : α) : List (String × α) → List (String × α)
  | [] => [(key, v)]
  | (k, w) :: rest =>
    if strLt key k then (key, v) :: (k, w) :: rest
    else if key = k then (key, v) :: rest
    else (k, w) :: insertSorted key v rest

/-- Modelled from the spec: Url::parse of the external url crate is not
part of this repository; accept exactly the strings containing one
scheme separator, which suffices for every conversion contract here. -/
def urlParse (s : String) : Option String :=
  if (s.splitOn "://").length = 2 then some s else none

/-- Modelled from the spec: Uuid::parse_str of the external uuid crate is
not part of this repository; accept exactly the 36-character hyphenated
textual form, which suffices for every conversion contract here. -/
def uuidParse (s : String) : Option String :=
  if s.length = 36 then some s else none

/-- Modelled from the spec: Base64UrlSafeData::try_from of the external
base64urlsafedata crate is not part of this repository; every string is
accepted as url-safe data here, which suffices for the contracts proved. -/
def b64Parse (s : String) : Option String :=
  some s

/-! ### Field-extraction combinators (macros.rs)

Each getter mirrors one macro: it removes the key from the map (BTreeMap
remove) and matches the stored value, returning the extracted field
together with the map after removal. -/

/-- macros.rs get_string: required string sub-attribute. -/
def getString (attrs : List (String × ScimSimpleAttr)) (key : String) :
    Except ScimError (String × List (String × ScimSimpleAttr)) :=
  match lookupRemove key attrs with
  | (none, _) => .error .MissingRequiredAttribute
  | (some (.string s), rest) => .ok (s, rest)
  | (some _, _) => .error .InvalidAttribute

/-- macros.rs get_uuid: required string sub-attribute parsed as a Uuid. -/
def getUuid (attrs : List (String × ScimSimpleAttr)) (key : String) :
    Except ScimError (String × List (String × ScimSimpleAttr)) :=
  match lookupRemove key attrs with
  | (none, _) => .error .MissingRequiredAttribute
  | (some (.string u), rest) =>
    match uuidParse u with
    | some x => .ok (x, rest)
    | none => .error .InvalidAttribute
  | (some _, _) => .error .InvalidAttribute

/-- macros.rs get_url: required string sub-attribute parsed as a Url. -/
def getUrl (attrs : List (String × ScimSimpleAttr)) (key : String) :
    Except ScimError (String × List (String × ScimSimpleAttr)) :=
  match lookupRemove key attrs with
  | (none, _) => .error .MissingRequiredAttribute
  | (some (.string u), rest) =>
    match urlParse u with
    | some x => .ok (x, rest)
    | none => .error .InvalidAttribute
  | (some _, _) => .error .InvalidAttribute

/-- macros.rs get_option_string: optional string sub-attribute. -/
def getOptionString (attrs : List (String × ScimSimpleAttr)) (key : String) :
    Except ScimError (Option String × List (String × ScimSimpleAttr)) :=
  match lookupRemove key attrs with
  | (none, rest) => .ok (none, rest)
  | (some (.string s), rest) => .ok (some s, rest)
  | (some _, _) => .error .InvalidAttribute

/-- macros.rs get_option_url: optional string sub-attribute parsed as a Url. -/
def getOptionUrl (attrs : List (String × ScimSimpleAttr)) (key : String) :
    Except ScimError (Option String × List (String × ScimSimpleAttr)) :=
  match lookupRemove key attrs with
  | (none, rest) => .ok (none, rest)
  | (some (.string u), rest) =>
    match urlParse u with
    | some x => .ok (some x, rest)
    | none => .error .InvalidAttribute
  | (some _, _) => .error .InvalidAttribute

/-- macros.rs get_option_bool: optional boolean sub-attribute. -/
def getOptionBool (attrs : List (String × ScimSimpleAttr)) (key : String) :
    Except ScimError (Option Bool × List (String × ScimSimpleAttr)) :=
  match lookupRemove key attrs with
  | (none, rest) => .ok (none, rest)
  | (some (.bool b), rest) => .ok (some b, rest)
  | (some _, _) => .error .InvalidAttribute

/-- macros.rs get_single_string: required single simple string attribute. -/
def getSingleString (attrs : List (String × ScimAttr)) (key : String) :
    Except ScimError (String × List (String × ScimAttr)) :=
  match lookupRemove key attrs with
  | (none, _) => .error .MissingRequiredAttribute
  | (some (.SingleSimple (.string s)), rest) => .ok (s, rest)
  | (some _, _) => .error .InvalidAttribute

/-- macros.rs get_single_bool: required single simple boolean attribute. -/
def getSingleBool (attrs : List (String × ScimAttr)) (key : String) :
    Except ScimError (Bool × List (String × ScimAttr)) :=
  match lookupRemove key attrs with
  | (none, _) => .error .MissingRequiredAttribute
  | (some (.SingleSimple (.bool b)), rest) => .ok (b, rest)
  | (some _, _) => .error .InvalidAttribute

/-- macros.rs get_option_single_string: optional single simple string. -/
def getOptionSingleString (attrs : List (String × ScimAttr)) (key : String) :
    Except ScimError (Option String × List (String × ScimAttr)) :=
  match lookupRemove key attrs with
  | (none, rest) => .ok (none, rest)
  | (some (.SingleSimple (.string s)), rest) => .ok (some s, rest)
  | (some _, _) => .error .InvalidAttribute

/-- macros.rs get_option_single_url: optional single simple string parsed
as a Url. -/
def getOptionSingleUrl (attrs : List (String × ScimAttr)) (key : String) :
    Except ScimError (Option String × List (String × ScimAttr)) :=
  match lookupRemove key attrs with
  | (none, rest) => .ok (none, rest)
  | (some (.SingleSimple (.string u)), rest) =>
    match urlParse u with
    | some x => .ok (some x, rest)
    | none => .error .InvalidAttribute
  | (some _, _) => .error .InvalidAttribute

/-- macros.rs try_from_option_single_string: optional single simple
string converted through the target type's TryFrom. -/
def tryFromOptionSingleString (conv : String → Except ScimError τ)
    (attrs : List (String × ScimAttr)) (key : String) :
    Except ScimError (Option τ × List (String × ScimAttr)) :=
  match lookupRemove key attrs with
  | (none, rest) => .ok (none, rest)
  | (some (.SingleSimple (.string s)), rest) => (conv s).map (fun t => (some t, rest))
  | (some _, _) => .error .InvalidAttribute

/-- macros.rs get_option_single_complex: optional single complex
attribute decoded through the target type's TryFrom. -/
def getOptionSingleComplex (conv : ScimComplexAttr → Except ScimError τ)
    (attrs : List (String × ScimAttr)) (key : String) :
    Except ScimError (Option τ × List (String × ScimAttr)) :=
  match lookupRemove key attrs with
  | (none, rest) => .ok (none, rest)
  | (some (.SingleComplex sca), rest) => (conv sca).map (fun t => (some t, rest))
  | (some _, _) => .error .InvalidAttribute

/-- macros.rs get_option_multi_complex: a present attribute must be
MultiComplex and every element is decoded through the target type's
TryFrom; an absent key yields the empty list (unwrap_or_default). -/
def getOptionMultiComplex (conv : ScimComplexAttr → Except ScimError τ)
    (attrs : List (String × ScimAttr)) (key : String) :
    Except ScimError (List τ × List (String × ScimAttr)) :=
  match lookupRemove key attrs with
  | (none, rest) => .ok ([], rest)
  | (some (.MultiComplex mca), rest) =>
    (collectResults conv mca).map (fun l => (l, rest))
  | (some _, _) => .error .InvalidAttribute

/-! ### Attribute-map setters (macros.rs set_* macros) -/

/-- macros.rs set_string. -/
def setString (attrs : List (String × ScimAttr)) (key : String) (v : String) :
    List (String × ScimAttr) :=
  insertSorted key (.SingleSimple (.string v)) attrs

/-- macros.rs set_bool. -/
def setBool (attrs : List (String × ScimAttr)) (key : String) (v : Bool) :
    List (String × ScimAttr) :=
  insertSorted key (.SingleSimple (.bool v)) attrs

/-- macros.rs set_option_string: absent options write nothing. -/
def setOptionString (attrs : List (String × ScimAttr)) (key : String) :
    Option String → List (String × ScimAttr)
  | some v => insertSorted key (.SingleSimple (.string v)) attrs
  | none => attrs

/-- macros.rs set_option_to_string: like set_option_string after applying
the value's Display form. -/
def setOptionToString (display : τ → String) (attrs : List (String × ScimAttr))
    (key : String) : Option τ → List (String × ScimAttr)
  | some v => insertSorted key (.SingleSimple (.string (display v))) attrs
  | none => attrs

/-- macros.rs set_option_complex. -/
def setOptionComplex (enc : τ → ScimComplexAttr) (attrs : List (String × ScimAttr))
    (key : String) : Option τ → List (String × ScimAttr)
  | some v => insertSorted key (.SingleComplex (enc v)) attrs
  | none => attrs

/-- macros.rs set_multi_complex: an empty list writes nothing. -/
def setMultiComplex (enc : τ → ScimComplexAttr) (attrs : List (String × ScimAttr))
    (key : String) (l : List τ) : List (String × ScimAttr) :=
  if l.isEmpty then attrs
  else insertSorted key (.MultiComplex (l.map enc)) attrs

/-! ### Schema URNs -/

/-- Modelled from the spec: constants.rs is not under src/; the User
schema URN per the protocol. Only membership of this string in an
Entry's schemas list is ever decided. -/
def SCIM_SCHEMA_USER : String := "urn:ietf:params:scim:schemas:core:2.0:User"

/-- Modelled from the spec: constants.rs is not under src/; the Group
schema URN per the protocol. -/
def SCIM_SCHEMA_GROUP : String := "urn:ietf:params:scim:schemas:core:2.0:Group"

/-! ### Locale and Timezone (user.rs) -/

/-- The closed locale enumeration (user.rs Locale). -/
inductive Locale where
  | en
  | en_AU
  | en_US
  | de
  | de_DE
deriving DecidableEq, Repr

/-- user.rs impl TryFrom String for Locale: closed table lookup, an
unrecognized value fails UnknownLocale. -/
def Locale.tryFrom (s : String) : Except ScimError Locale :=
  if s = "en" then .ok .en
  else if s = "en-AU" then .ok .en_AU
  else if s = "en-US" then .ok .en_US
  else if s = "de" then .ok .de
  else if s = "de-DE" then .ok .de_DE
  else .error .UnknownLocale

/-- user.rs impl Display for Locale. -/
def Locale.display : Locale → String
  | .en => "en"
  | .en_AU => "en-AU"
  | .en_US => "en-US"
  | .de => "de"
  | .de_DE => "de-DE"

/-- The closed timezone enumeration (user.rs Timezone). -/
inductive Timezone where
  | Australia_Brisbane
  | America_Los_Angeles
deriving DecidableEq, Repr

/-- user.rs impl TryFrom String for Timezone: closed table lookup. Note
that the source's fallthrough arm returns UnknownLocale, not
UnknownTimezone, and its debug message reads "invalid locale". -/
def Timezone.tryFrom (s : String) : Except ScimError Timezone :=
  if s = "Australia/Brisbane" then .ok .Australia_Brisbane
  else if s = "America/Los_Angeles" then .ok .America_Los_Angeles
  else .error .UnknownLocale

/-- user.rs impl Display for Timezone. -/
def Timezone.display : Timezone → String
  | .Australia_Brisbane => "Australia/Brisbane"
  | .America_Los_Angeles => "America/Los_Angeles"

/-! ### Nested shapes (user.rs, group.rs) -/

/-- user.rs Name. -/
structure Name where
  formatted : Option String
  familyName : Option String
  givenName : Option String
  middleName : Option String
  honorificPrefix : Option String
  honorificSuffix : Option String
deriving DecidableEq, Repr

/-- user.rs impl TryFrom ScimComplexAttr for Name. -/
def Name.tryFrom (value : ScimComplexAttr) : Except ScimError Name := do
  let (formatted, a1) ← getOptionString value.attrs "formatted"
  let (familyName, a2) ← getOptionString a1 "familyName"
  let (givenName, a3) ← getOptionString a2 "givenName"
  let (middleName, a4) ← getOptionString a3 "middleName"
  let (honorificPrefix, a5) ← getOptionString a4 "honorificPrefix"
  let (honorificSuffix, _a6) ← getOptionString a5 "honorificSuffix"
  .ok { formatted, familyName, givenName, middleName, honorificPrefix, honorificSuffix }

/-- One optional-string insertion step of the Into impls: absent options
write nothing, present ones insert the string under the key. -/
def insOptStr (key : String) (v : Option String)
    (attrs : List (String × ScimSimpleAttr)) : List (String × ScimSimpleAttr) :=
  match v with
  | some s => insertSorted key (.string s) attrs
  | none => attrs

/-- One optional-boolean insertion step of the Into impls. -/
def insOptBool (key : String) (v : Option Bool)
    (attrs : List (String × ScimSimpleAttr)) : List (String × ScimSimpleAttr) :=
  match v with
  | some b => insertSorted key (.bool b) attrs
  | none => attrs

/-- user.rs impl Into ScimComplexAttr for Name. -/
def Name.intoAttr (n : Name) : ScimComplexAttr :=
  ⟨insOptStr "honorificSuffix" n.honorificSuffix
    (insOptStr "honorificPrefix" n.honorificPrefix
      (insOptStr "middleName" n.middleName
        (insOptStr "givenName" n.givenName
          (insOptStr "familyName" n.familyName
            (insOptStr "formatted" n.formatted [])))))⟩

/-- user.rs MultiValueAttr: the generic typed multi-value element. The
Url-typed reference is kept as its textual form. -/
structure MultiValueAttr where
  type_ : Option String
  primary : Option Bool
  display : Option String
  ref_ : Option String
  value : String
deriving DecidableEq, Repr

/-- user.rs impl TryFrom ScimComplexAttr for MultiValueAttr; the source
extracts value before the $ref key. -/
def MultiValueAttr.tryFrom (sca : ScimComplexAttr) : Except ScimError MultiValueAttr := do
  let (type_, a1) ← getOptionString sca.attrs "type"
  let (primary, a2) ← getOptionBool a1 "primary"
  let (display, a3) ← getOptionString a2 "display"
  let (value, a4) ← getString a3 "value"
  let (ref_, _a5) ← getOptionUrl a4 "$ref"
  .ok { type_, primary, display, ref_, value }

/-- user.rs impl Into ScimComplexAttr for MultiValueAttr. -/
def MultiValueAttr.intoAttr (m : MultiValueAttr) : ScimComplexAttr :=
  ⟨insertSorted "value" (.string m.value)
    (insOptStr "$ref" m.ref_
      (insOptStr "display" m.display
        (insOptBool "primary" m.primary
          (insOptStr "type" m.type_ []))))⟩

/-- user.rs Photo: a MultiValueAttr whose value must parse as a Url. -/
structure Photo where
  type_ : Option String
  primary : Option Bool
  display : Option String
  ref_ : Option String
  value : String
deriving DecidableEq, Repr

/-- user.rs impl TryFrom ScimComplexAttr for Photo. -/
def Photo.tryFrom (sca : ScimComplexAttr) : Except ScimError Photo := do
  let mva ← MultiValueAttr.tryFrom sca
  match urlParse mva.value with
  | some value =>
    .ok { type_ := mva.type_, primary := mva.primary, display := mva.display,
          ref_ := mva.ref_, value }
  | none => .error .InvalidAttribute

/-- user.rs impl Into ScimComplexAttr for Photo. -/
def Photo.intoAttr (p : Photo) : ScimComplexAttr :=
  ⟨insertSorted "value" (.string p.value)
    (insOptStr "$ref" p.ref_
      (insOptStr "display" p.display
        (insOptBool "primary" p.primary
          (insOptStr "type" p.type_ []))))⟩

/-- user.rs Binary: a MultiValueAttr whose value must parse as base64
url-safe data. -/
structure Binary where
  type_ : Option String
  primary : Option Bool
  display : Option String
  ref_ : Option String
  value : String
deriving DecidableEq, Repr

/-- user.rs impl TryFrom ScimComplexAttr for Binary. -/
def Binary.tryFrom (sca : ScimComplexAttr) : Except ScimError Binary := do
  let mva ← MultiValueAttr.tryFrom sca
  match b64Parse mva.value with
  | some value =>
    .ok { type_ := mva.type_, primary := mva.primary, display := mva.display,
          ref_ := mva.ref_, value }
  | none => .error .InvalidAttribute

/-- user.rs impl Into ScimComplexAttr for Binary. -/
def Binary.intoAttr (b : Binary) : ScimComplexAttr :=
  ⟨insertSorted "value" (.string b.value)
    (insOptStr "$ref" b.ref_
      (insOptStr "display" b.display
        (insOptBool "primary" b.primary
          (insOptStr "type" b.type_ []))))⟩

/-- user.rs Address. -/
structure Address where
  type_ : Option String
  primary : Option Bool
  formatted : Option String
  streetAddress : Option String
  locality : Option String
  region : Option String
  postalCode : Option String
  country : Option String
deriving DecidableEq, Repr

/-- user.rs impl TryFrom ScimComplexAttr for Address. -/
def Address.tryFrom (sca : ScimComplexAttr) : Except ScimError Address := do
  let (type_, a1) ← getOptionString sca.attrs "type"
  let (primary, a2) ← getOptionBool a1 "primary"
  let (formatted, a3) ← getOptionString a2 "formatted"
  let (streetAddress, a4) ← getOptionString a3 "streetAddress"
  let (locality, a5) ← getOptionString a4 "locality"
  let (region, a6) ← getOptionString a5 "region"
  let (postalCode, a7) ← getOptionString a6 "postalCode"
  let (country, _a8) ← getOptionString a7 "country"
  .ok { type_, primary, formatted, streetAddress, locality, region, postalCode, country }

/-- user.rs impl Into ScimComplexAttr for Address. -/
def Address.intoAttr (a : Address) : ScimComplexAttr :=
  ⟨insOptStr "country" a.country
    (insOptStr "postalCode" a.postalCode
      (insOptStr "region" a.region
        (insOptStr "locality" a.locality
          (insOptStr "streetAddress" a.streetAddress
            (insOptStr "formatted" a.formatted
              (insOptBool "primary" a.primary
                (insOptStr "type" a.type_ [])))))))⟩

/-- user.rs Group: a user's group-membership reference (value is a Uuid,
ref is a Url, both kept textual). -/
structure GroupMembership where
  value : String
  ref_ : String
  display : String
  type_ : Option String
deriving DecidableEq, Repr

/-- user.rs impl TryFrom ScimComplexAttr for the membership Group. -/
def GroupMembership.tryFrom (sca : ScimComplexAttr) : Except ScimError GroupMembership := do
  let (type_, a1) ← getOptionString sca.attrs "type"
  let (display, a2) ← getString a1 "display"
  let (value, a3) ← getUuid a2 "value"
  let (ref_, _a4) ← getUrl a3 "$ref"
  .ok { type_, display, value, ref_ }

/-- user.rs impl Into ScimComplexAttr for the membership Group. -/
def GroupMembership.intoAttr (g : GroupMembership) : ScimComplexAttr :=
  ⟨insertSorted "value" (.string g.value)
    (insertSorted "$ref" (.string g.ref_)
      (insertSorted "display" (.string g.display)
        (insOptStr "type" g.type_ [])))⟩

/-- group.rs Member. -/
structure Member where
  value : String
  ref_ : String
  display : String
deriving DecidableEq, Repr

/-- group.rs impl TryFrom ScimComplexAttr for Member. -/
def Member.tryFrom (sca : ScimComplexAttr) : Except ScimError Member := do
  let (display, a1) ← getString sca.attrs "display"
  let (value, a2) ← getUuid a1 "value"
  let (ref_, _a3) ← getUrl a2 "$ref"
  .ok { display, value, ref_ }

/-- group.rs impl Into ScimComplexAttr for Member. -/
def Member.intoAttr (m : Member) : ScimComplexAttr :=
  ⟨insertSorted "value" (.string m.value)
    (insertSorted "$ref" (.string m.ref_)
      (insertSorted "display" (.string m.display) []))⟩

/-! ### User (user.rs) -/

/-- user.rs User. Uuid and Url fields are kept textual. -/
structure User where
  id : String
  externalId : Option String
  meta : Option ScimMeta
  userName : String
  name : Option Name
  displayName : Option String
  nickName : Option String
  profileUrl : Option String
  title : Option String
  userType : Option String
  preferredLanguage : Option Locale
  locale : Option Locale
  timezone : Option Timezone
  active : Bool
  password : Option String
  emails : List MultiValueAttr
  phoneNumbers : List MultiValueAttr
  ims : List MultiValueAttr
  photos : List Photo
  addresses : List Address
  groups : List GroupMembership
  entitlements : List MultiValueAttr
  roles : List MultiValueAttr
  x509certificates : List Binary
deriving DecidableEq, Repr

/-- The field-extraction chain of user.rs impl TryFrom ScimEntry for
User, run after the schema check; returns the decoded User together with
the residual attribute map (the state of value.attrs after all removals).
The source reads both the photos and the addresses fields from the key
"photos", and reads certificates from the key "x509Certificates". -/
def User.fieldsFrom (value : ScimEntry) : Except ScimError (User × List (String × ScimAttr)) := do
  let (userName, a0) ← getSingleString value.attrs "userName"
  let (name, a1) ← getOptionSingleComplex Name.tryFrom a0 "name"
  let (displayName, a2) ← getOptionSingleString a1 "displayName"
  let (nickName, a3) ← getOptionSingleString a2 "nickName"
  let (profileUrl, a4) ← getOptionSingleUrl a3 "profileUrl"
  let (title, a5) ← getOptionSingleString a4 "title"
  let (userType, a6) ← getOptionSingleString a5 "userType"
  let (preferredLanguage, a7) ← tryFromOptionSingleString Locale.tryFrom a6 "preferredLanguage"
  let (locale, a8) ← tryFromOptionSingleString Locale.tryFrom a7 "locale"
  let (timezone, a9) ← tryFromOptionSingleString Timezone.tryFrom a8 "timezone"
  let (active, a10) ← getSingleBool a9 "active"
  let (password, a11) ← getOptionSingleString a10 "password"
  let (emails, a12) ← getOptionMultiComplex MultiValueAttr.tryFrom a11 "emails"
  let (ims, a13) ← getOptionMultiComplex MultiValueAttr.tryFrom a12 "ims"
  let (phoneNumbers, a14) ← getOptionMultiComplex MultiValueAttr.tryFrom a13 "phoneNumbers"
  let (photos, a15) ← getOptionMultiComplex Photo.tryFrom a14 "photos"
  let (addresses, a16) ← getOptionMultiComplex Address.tryFrom a15 "photos"
  let (groups, a17) ← getOptionMultiComplex GroupMembership.tryFrom a16 "groups"
  let (entitlements, a18) ← getOptionMultiComplex MultiValueAttr.tryFrom a17 "entitlements"
  let (roles, a19) ← getOptionMultiComplex MultiValueAttr.tryFrom a18 "roles"
  let (x509certificates, a20) ← getOptionMultiComplex Binary.tryFrom a19 "x509Certificates"
  .ok ({ id := value.id, externalId := value.externalId, meta := value.meta,
         userName, name, displayName, nickName, profileUrl, title, userType,
         preferredLanguage, locale, timezone, active, password,
         emails, ims, phoneNumbers, photos, addresses, groups,
         entitlements, roles, x509certificates }, a20)

/-- user.rs impl TryFrom ScimEntry for User with the residual attribute
map exposed: the schema check, then the field-extraction chain. -/
def User.tryFromAux (value : ScimEntry) : Except ScimError (User × List (String × ScimAttr)) :=
  if value.schemas.any (fun i => i = SCIM_SCHEMA_USER) then User.fieldsFrom value
  else .error .EntryMissingSchema

/-- user.rs impl TryFrom ScimEntry for User. -/
def User.tryFrom (value : ScimEntry) : Except ScimError User :=
  (User.tryFromAux value).map Prod.fst

/-- user.rs impl Into ScimEntry for User: the schemas list is replaced by
the single owning URN; absent options and empty lists are omitted. The
source writes the certificates under the key "x509certificates" (note
the lower-case c, unlike the decode key "x509Certificates"). -/
def User.intoEntry (u : User) : ScimEntry :=
  let attrs : List (String × ScimAttr) := []
  let attrs := setString attrs "userName" u.userName
  let attrs := setOptionComplex Name.intoAttr attrs "name" u.name
  let attrs := setOptionString attrs "displayName" u.displayName
  let attrs := setOptionString attrs "nickName" u.nickName
  let attrs := setOptionToString (fun s => s) attrs "profileUrl" u.profileUrl
  let attrs := setOptionString attrs "title" u.title
  let attrs := setOptionString attrs "userType" u.userType
  let attrs := setOptionToString Locale.display attrs "preferredLanguage" u.preferredLanguage
  let attrs := setOptionToString Locale.display attrs "locale" u.locale
  let attrs := setOptionToString Timezone.display attrs "timezone" u.timezone
  let attrs := setBool attrs "active" u.active
  let attrs := setOptionToString (fun s => s) attrs "password" u.password
  let attrs := setMultiComplex MultiValueAttr.intoAttr attrs "emails" u.emails
  let attrs := setMultiComplex MultiValueAttr.intoAttr attrs "phoneNumbers" u.phoneNumbers
  let attrs := setMultiComplex MultiValueAttr.intoAttr attrs "ims" u.ims
  let attrs := setMultiComplex Photo.intoAttr attrs "photos" u.photos
  let attrs := setMultiComplex Address.intoAttr attrs "addresses" u.addresses
  let attrs := setMultiComplex GroupMembership.intoAttr attrs "groups" u.groups
  let attrs := setMultiComplex MultiValueAttr.intoAttr attrs "entitlements" u.entitlements
  let attrs := setMultiComplex MultiValueAttr.intoAttr attrs "roles" u.roles
  let attrs := setMultiComplex Binary.intoAttr attrs "x509certificates" u.x509certificates
  { schemas := [SCIM_SCHEMA_USER], id := u.id, externalId := u.externalId,
    meta := u.meta, attrs }

/-! ### Group (group.rs) -/

/-- group.rs Group. The source declares meta : ScimMeta but assigns it
from ScimEntry's Option-typed meta; the Option form is kept so the
converter is well-typed against the src ScimEntry. -/
structure Group where
  id : String
  externalId : Option String
  meta : Option ScimMeta
  displayName : String
  members : List Member
deriving DecidableEq, Repr

/-- The field-extraction chain of group.rs impl TryFrom ScimEntry for
Group, run after the schema check, with the residual map exposed. -/
def Group.fieldsFrom (value : ScimEntry) : Except ScimError (Group × List (String × ScimAttr)) := do
  let (displayName, a0) ← getSingleString value.attrs "displayName"
  let (members, a1) ← getOptionMultiComplex Member.tryFrom a0 "members"
  .ok ({ displayName, members, id := value.id, externalId := value.externalId,
         meta := value.meta }, a1)

/-- group.rs impl TryFrom ScimEntry for Group with the residual map. -/
def Group.tryFromAux (value : ScimEntry) : Except ScimError (Group × List (String × ScimAttr)) :=
  if value.schemas.any (fun i => i = SCIM_SCHEMA_GROUP) then Group.fieldsFrom value
  else .error .EntryMissingSchema

/-- group.rs impl TryFrom ScimEntry for Group. -/
def Group.tryFrom (value : ScimEntry) : Except ScimError Group :=
  (Group.tryFromAux value).map Prod.fst

/-- group.rs impl Into ScimEntry for Group. -/
def Group.intoEntry (g : Group) : ScimEntry :=
  let attrs : List (String × ScimAttr) := []
  let attrs := setString attrs "displayName" g.displayName
  let attrs := setMultiComplex Member.intoAttr attrs "members" g.members
  { schemas := [SCIM_SCHEMA_GROUP], id := g.id, externalId := g.externalId,
    meta := g.meta, attrs }

/-! ### Filter grammar (filter.rs and the grammar of spec section 4.4)

filter.rs declares the AST (AttrPath, ScimFilter) and exercises the
generated grammar in its tests, but the grammar file itself
(filter1.lalrpop) is not under src/; the recognizer below is modelled
from the spec's EBNF. -/

/-- filter.rs AttrPath: attribute name plus optional sub-attribute. -/
structure AttrPath where
  a : String
  s : Option String
deriving DecidableEq, Repr

/-- filter.rs ScimFilter: the two implemented operators. -/
inductive ScimFilter where
  | Present (p : AttrPath)
  | Equal (p : AttrPath) (v : Value)

/-- The structured syntax-error outcome of a failed parse. -/
inductive FilterSyntaxErr where
  | syntaxViolation
deriving DecidableEq, Repr

/-- Modelled from the spec: an identifier's leading character must be
alphabetic (section 4.4). -/
def isIdentStart (c : Char) : Bool :=
  (('a' ≤ c && c ≤ 'z') || ('A' ≤ c && c ≤ 'Z'))

/-- Modelled from the spec: identifier continuation characters are
alphanumerics, hyphen or underscore (section 4.4). -/
def isIdentCont (c : Char) : Bool :=
  isIdentStart c || ('0' ≤ c && c ≤ '9') || c = '-' || c = '_'

/-- Take the longest run of identifier-continuation characters. -/
def takeIdentCont : List Char → List Char × List Char
  | [] => ([], [])
  | c :: rest =>
    if isIdentCont c then
      let r := takeIdentCont rest
      (c :: r.1, r.2)
    else ([], c :: rest)

/-- Modelled from the spec: read one identifier (ALPHA then ALNUM, hyphen
or underscore) from the front of the input, or fail. -/
def takeIdent : List Char → Option (String × List Char)
  | [] => none
  | c :: rest =>
    if isIdentStart c then
      let r := takeIdentCont rest
      some (String.mk (c :: r.1), r.2)
    else none

/-- Modelled from the spec: read an attr-path — an identifier optionally
followed by a single dot and a sub-attribute identifier. -/
def takeAttrPath (cs : List Char) : Option (AttrPath × List Char) :=
  match takeIdent cs with
  | none => none
  | some (a, rem) =>
    match rem with
    | '.' :: rest =>
      match takeIdent rest with
      | some (s, rem2) => some ({ a, s := some s }, rem2)
      | none => none
    | _ => some ({ a, s := none }, rem)

/-- Modelled from the spec: the standalone attr-path entry point; the
whole input must be consumed. -/
def parseAttrPath (input : String) : Except FilterSyntaxErr AttrPath :=
  match takeAttrPath input.data with
  | some (p, []) => .ok p
  | _ => .error .syntaxViolation

/-- Read the characters of a quoted string up to the closing quote. -/
def takeQuoted : List Char → Option (List Char × List Char)
  | [] => none
  | c :: rest =>
    if c = '\x22' then some ([], rest)
    else
      match takeQuoted rest with
      | some (a, b) => some (c :: a, b)
      | none => none

/-- Digits of a bare numeric token folded into an integer. -/
def digitsToInt (ds : List Char) : Int :=
  (ds.foldl (fun acc c => acc * 10 + (c.toNat - 48)) 0 : Nat)

/-- Modelled from the spec: the eq operand — a quoted string or a bare
token read as a scalar JSON-like value (boolean and integer literals,
otherwise a string). -/
def parseValueToken (cs : List Char) : Except FilterSyntaxErr Value :=
  match cs with
  | [] => .error .syntaxViolation
  | c :: rest =>
    if c = '\x22' then
      match takeQuoted rest with
      | some (content, []) => .ok (.str (String.mk content))
      | _ => .error .syntaxViolation
    else if cs.any (fun x => x = ' ') then .error .syntaxViolation
    else if cs.all (fun x => '0' ≤ x && x ≤ '9') then .ok (.num (digitsToInt cs))
    else if String.mk cs = "true" then .ok (.bool true)
    else if String.mk cs = "false" then .ok (.bool false)
    else .ok (.str (String.mk cs))

/-- Modelled from the spec: the filter-expression entry point — an
attr-path followed by the pr operator, or by the eq operator and a
scalar value; any other shape is a structured syntax error and no
partial AST is returned. -/
def parseScimFilter (input : String) : Except FilterSyntaxErr ScimFilter :=
  match takeAttrPath input.data with
  | none => .error .syntaxViolation
  | some (p, rem) =>
    match rem with
    | [' ', 'p', 'r'] => .ok (.Present p)
    | ' ' :: 'e' :: 'q' :: ' ' :: vcs => (parseValueToken vcs).map (.Equal p)
    | _ => .error .syntaxViolation

/-! ## Helper lemmas -/

/-- Mapping over an Except yields ok exactly when the base does. -/
theorem exceptMap_eq_ok {f : α → β} {e : Except ε α} {b : β} :
    e.map f = .ok b ↔ ∃ a, e = .ok a ∧ f a = b := by
  cases e <;> simp [Except.map]

/-- Binding an Except yields ok exactly when both stages do. -/
theorem exceptBind_eq_ok {e : Except ε α} {f : α → Except ε β} {b : β} :
    (e >>= f) = .ok b ↔ ∃ a, e = .ok a ∧ f a = .ok b := by
  cases e <;> simp [Bind.bind, Except.bind]

/-- collectResults on a cons: convert the head, then the tail. -/
theorem collectResults_cons (f : α → Except ScimError β) (x : α) (xs : List α) :
    collectResults f (x :: xs) =
      (f x >>= fun y => collectResults f xs >>= fun ys => .ok (y :: ys)) := rfl

/-- A successful collectResults inverts elementwise: if every conversion
is undone by g, mapping g over the result recovers the input list. -/
theorem collectResults_ok_inverts (f : α → Except ScimError β) (g : β → α)
    (hfg : ∀ x y, f x = .ok y → g y = x) :
    ∀ l r, collectResults f l = .ok r → r.map g = l := by
  intro l
  induction l with
  | nil => intro r h; simp [collectResults] at h; simp [← h]
  | cons x xs ih =>
    intro r h
    rw [collectResults_cons] at h
    rw [exceptBind_eq_ok] at h
    obtain ⟨y, hy, h⟩ := h
    rw [exceptBind_eq_ok] at h
    obtain ⟨ys, hys, h⟩ := h
    injection h with h
    subst h
    simp [hfg x y hy, ih ys hys]

/-- collectResults fails with the error of the first failing element
when every earlier element converts. -/
theorem collectResults_append_err (f : α → Except ScimError β)
    (pre : List α) (w : α) (post : List α) (e : ScimError)
    (hpre : ∀ x ∈ pre, ∃ y, f x = .ok y) (hw : f w = .error e) :
    collectResults f (pre ++ w :: post) = .error e := by
  induction pre with
  | nil => simp [collectResults_cons, hw, Bind.bind, Except.bind]
  | cons x xs ih =>
    obtain ⟨y, hy⟩ := hpre x (List.mem_cons_self x xs)
    have htail := ih (fun z hz => hpre z (List.mem_cons_of_mem x hz))
    simp [collectResults_cons, hy, htail, Bind.bind, Except.bind]

/-- A simple attribute converts back to the exact wire scalar it was
classified from. -/
theorem simpleAttr_inverts (v : Value) (s : ScimSimpleAttr)
    (h : ScimSimpleAttr.tryFrom v = .ok s) : s.toValue = v := by
  cases v <;> simp [ScimSimpleAttr.tryFrom] at h <;>
    simp [← h, ScimSimpleAttr.toValue]

/-- A complex attribute built from an object serializes back to that
object. -/
theorem complexAttr_map_inverts (m : List (String × Value)) (c : ScimComplexAttr)
    (h : ScimComplexAttr.tryFromMap m = .ok c) : c.toValue = .obj m := by
  unfold ScimComplexAttr.tryFromMap at h
  rw [exceptMap_eq_ok] at h
  obtain ⟨l, hl, hc⟩ := h
  have := collectResults_ok_inverts
    (fun kv => (ScimSimpleAttr.tryFrom kv.2).map (fun sv => (kv.1, sv)))
    (fun kv => (kv.1, kv.2.toValue))
    (by
      intro kv y hkv
      rw [exceptMap_eq_ok] at hkv
      obtain ⟨s0, hs0, heq⟩ := hkv
      subst heq
      simp [simpleAttr_inverts _ _ hs0])
    m l hl
  simp [← hc, ScimComplexAttr.toValue, this]

/-- A complex attribute converts back to the exact wire value it was
classified from. -/
theorem complexAttr_inverts (v : Value) (c : ScimComplexAttr)
    (h : ScimComplexAttr.tryFrom v = .ok c) : c.toValue = v := by
  cases v <;> simp [ScimComplexAttr.tryFrom] at h
  exact complexAttr_map_inverts _ _ h

/-! ## Claim theorems -/

/-- C4: classification exhaustiveness of ScimAttr::try_from. The empty
array fails EmptyMultiValue; an array-headed array fails
NestedMultiValue; an object-headed array becomes MultiComplex with every
element converted as a complex attribute; any other non-empty array
becomes MultiSimple with every element converted as a scalar; a
heterogeneous array is classified by its head and fails with the
per-element error of the first mismatching element; a non-array object
becomes SingleComplex and any other value SingleSimple. -/
theorem scim_attr_classification :
    (ScimAttr.tryFrom (.arr []) = .error .EmptyMultiValue) ∧
    (∀ x l, ScimAttr.tryFrom (.arr (.arr x :: l)) = .error .NestedMultiValue) ∧
    (∀ m l, ScimAttr.tryFrom (.arr (.obj m :: l)) =
      (collectResults ScimComplexAttr.tryFrom (.obj m :: l)).map .MultiComplex) ∧
    (∀ v l, v.isElemScalar = true → ScimAttr.tryFrom (.arr (v :: l)) =
      (collectResults ScimSimpleAttr.tryFrom (v :: l)).map .MultiSimple) ∧
    (∀ v pre w post e, v.isElemScalar = true →
      (∀ x ∈ pre, ∃ y, ScimSimpleAttr.tryFrom x = .ok y) →
      (∃ y, ScimSimpleAttr.tryFrom v = .ok y) →
      ScimSimpleAttr.tryFrom w = .error e →
      ScimAttr.tryFrom (.arr (v :: (pre ++ w :: post))) = .error e) ∧
    (∀ m, ScimAttr.tryFrom (.obj m) =
      (ScimComplexAttr.tryFromMap m).map .SingleComplex) ∧
    (∀ v, v.isElemScalar = true →
      ScimAttr.tryFrom v = (ScimSimpleAttr.tryFrom v).map .SingleSimple) := by
  have h4 : ∀ v l, v.isElemScalar = true → ScimAttr.tryFrom (.arr (v :: l)) =
      (collectResults ScimSimpleAttr.tryFrom (v :: l)).map .MultiSimple := by
    intro v l hv
    match v with
    | .null | .bool _ | .num _ | .str _ => rfl
    | .arr _ | .obj _ => simp [Value.isElemScalar] at hv
  refine ⟨rfl, fun x l => rfl, fun m l => rfl, h4, ?_, fun m => rfl, ?_⟩
  · intro v pre w post e hv hpre hvok hw
    rw [h4 v _ hv]
    obtain ⟨y, hy⟩ := hvok
    rw [collectResults_cons]
    rw [collectResults_append_err ScimSimpleAttr.tryFrom pre w post e hpre hw]
    simp [hy, Bind.bind, Except.bind, Except.map]
  · intro v hv
    match v with
    | .null | .bool _ | .num _ | .str _ => rfl
    | .arr _ | .obj _ => simp [Value.isElemScalar] at hv

/-- C4 witness: the heterogeneous array [str, obj] fails with the
object's per-element error; a homogeneous scalar array and a single
scalar follow the stated classification equations. -/
theorem scim_attr_classification_witness :
    (ScimAttr.tryFrom (.arr [.str "a", .obj []]) = .error .InvalidSingleValue) ∧
    (ScimAttr.tryFrom (.arr [.str "a", .str "b"]) =
      (collectResults ScimSimpleAttr.tryFrom [.str "a", .str "b"]).map .MultiSimple) ∧
    (ScimAttr.tryFrom (.str "a") =
      (ScimSimpleAttr.tryFrom (.str "a")).map .SingleSimple) := by
  refine ⟨?_, ?_, ?_⟩
  · exact scim_attr_classification.2.2.2.2.1 (.str "a") [] (.obj []) []
      .InvalidSingleValue rfl (by simp) ⟨_, rfl⟩ rfl
  · exact scim_attr_classification.2.2.2.1 (.str "a") [.str "b"] rfl
  · exact scim_attr_classification.2.2.2.2.2.2 (.str "a") rfl

/-- The MultiSimple arm of the round trip: when classification of an
array takes the scalar branch and succeeds, serialization recovers the
array. -/
theorem multiSimple_roundtrip_aux (v0 : Value) (l : List Value) (a : ScimAttr)
    (h : ScimAttr.tryFrom (.arr (v0 :: l)) = .ok a)
    (heq : ScimAttr.tryFrom (.arr (v0 :: l)) =
      (collectResults ScimSimpleAttr.tryFrom (v0 :: l)).map .MultiSimple) :
    a.toValue = .arr (v0 :: l) := by
  rw [heq, exceptMap_eq_ok] at h
  obtain ⟨r, hr, ha⟩ := h
  subst ha
  have hinv := collectResults_ok_inverts ScimSimpleAttr.tryFrom
    ScimSimpleAttr.toValue simpleAttr_inverts _ _ hr
  simp [ScimAttr.toValue, hinv]

/-- C5: on every wire value the classification accepts, serializing the
resulting attribute back to a wire value is exact — the round trip
reproduces the input value structurally. -/
theorem scim_attr_roundtrip :
    ∀ v a, ScimAttr.tryFrom v = .ok a → a.toValue = v := by
  intro v a h
  match v with
  | .null => simp [ScimAttr.tryFrom, ScimSimpleAttr.tryFrom, Except.map] at h
  | .bool b =>
    have h2 : Except.ok (ScimAttr.SingleSimple (.bool b)) = Except.ok a := h
    injection h2 with h2
    subst h2
    rfl
  | .num n =>
    have h2 : Except.ok (ScimAttr.SingleSimple (.number n)) = Except.ok a := h
    injection h2 with h2
    subst h2
    rfl
  | .str s =>
    have h2 : Except.ok (ScimAttr.SingleSimple (.string s)) = Except.ok a := h
    injection h2 with h2
    subst h2
    rfl
  | .obj m =>
    have h2 : (ScimComplexAttr.tryFromMap m).map ScimAttr.SingleComplex = Except.ok a := h
    rw [exceptMap_eq_ok] at h2
    obtain ⟨c, hc, ha⟩ := h2
    subst ha
    simpa [ScimAttr.toValue] using complexAttr_map_inverts m c hc
  | .arr [] => simp [ScimAttr.tryFrom] at h
  | .arr (.arr x :: l) => simp [ScimAttr.tryFrom] at h
  | .arr (.obj m :: l) =>
    have h2 : (collectResults ScimComplexAttr.tryFrom (.obj m :: l)).map
        ScimAttr.MultiComplex = Except.ok a := h
    rw [exceptMap_eq_ok] at h2
    obtain ⟨r, hr, ha⟩ := h2
    subst ha
    have hinv := collectResults_ok_inverts ScimComplexAttr.tryFrom
      ScimComplexAttr.toValue complexAttr_inverts _ _ hr
    simp [ScimAttr.toValue, hinv]
  | .arr (.null :: l) | .arr (.bool _ :: l) | .arr (.num _ :: l) | .arr (.str _ :: l) =>
    exact multiSimple_roundtrip_aux _ l a h rfl

/-- C5 witness: classifying the scalar string "x" succeeds and
serializes back to it. -/
theorem scim_attr_roundtrip_witness :
    ScimAttr.toValue (.SingleSimple (.string "x")) = .str "x" :=
  scim_attr_roundtrip (.str "x") (.SingleSimple (.string "x")) rfl

/-- C9: the wire value null at attribute position always fails
classification with InvalidSingleValue — it is never represented as an
absent attribute, an empty attribute, or any ScimAttr variant. -/
theorem null_classified_invalid_single :
    ScimAttr.tryFrom .null = .error .InvalidSingleValue := rfl

/-! ## No conversion step after the schema check raises EntryMissingSchema -/

/-- The outcome is not the EntryMissingSchema error. -/
def NoEMS (r : Except ScimError α) : Prop :=
  r ≠ Except.error ScimError.EntryMissingSchema

/-- Successes are never EntryMissingSchema. -/
theorem noEMS_ok (a : α) : NoEMS (Except.ok (ε := ScimError) a) := by
  simp [NoEMS]

/-- Any other error kind is not EntryMissingSchema. -/
theorem noEMS_error {c : ScimError} (h : c ≠ .EntryMissingSchema) :
    NoEMS (Except.error (α := α) c) := by
  simp [NoEMS, h]

/-- Binding preserves freedom from EntryMissingSchema. -/
theorem noEMS_bind {e : Except ScimError α} {f : α → Except ScimError β}
    (he : NoEMS e) (hf : ∀ a, NoEMS (f a)) : NoEMS (e >>= f) := by
  cases e with
  | ok a => simpa [Bind.bind, Except.bind] using hf a
  | error c => simpa [NoEMS, Bind.bind, Except.bind] using he

/-- Mapping preserves freedom from EntryMissingSchema. -/
theorem noEMS_map {e : Except ScimError α} (he : NoEMS e) (f : α → β) :
    NoEMS (e.map f) := by
  cases e <;> simp_all [NoEMS, Except.map]

/-- collectResults preserves freedom from EntryMissingSchema. -/
theorem noEMS_collect {f : α → Except ScimError β} (hf : ∀ x, NoEMS (f x)) :
    ∀ l, NoEMS (collectResults f l) := by
  intro l
  induction l with
  | nil => exact noEMS_ok _
  | cons x xs ih =>
    rw [collectResults_cons]
    exact noEMS_bind (hf x) fun y => noEMS_bind ih fun ys => noEMS_ok _

/-- getString raises only MissingRequiredAttribute or InvalidAttribute. -/
theorem noEMS_getString (attrs : List (String × ScimSimpleAttr)) (key : String) :
    NoEMS (getString attrs key) := by
  unfold getString
  split <;> first | exact noEMS_ok _ | exact noEMS_error (by simp)

/-- getUuid raises only MissingRequiredAttribute or InvalidAttribute. -/
theorem noEMS_getUuid (attrs : List (String × ScimSimpleAttr)) (key : String) :
    NoEMS (getUuid attrs key) := by
  unfold getUuid
  split <;> (try split) <;> first | exact noEMS_ok _ | exact noEMS_error (by simp)

/-- getUrl raises only MissingRequiredAttribute or InvalidAttribute. -/
theorem noEMS_getUrl (attrs : List (String × ScimSimpleAttr)) (key : String) :
    NoEMS (getUrl attrs key) := by
  unfold getUrl
  split <;> (try split) <;> first | exact noEMS_ok _ | exact noEMS_error (by simp)

/-- getOptionString raises only InvalidAttribute. -/
theorem noEMS_getOptionString (attrs : List (String × ScimSimpleAttr)) (key : String) :
    NoEMS (getOptionString attrs key) := by
  unfold getOptionString
  split <;> first | exact noEMS_ok _ | exact noEMS_error (by simp)

/-- getOptionUrl raises only InvalidAttribute. -/
theorem noEMS_getOptionUrl (attrs : List (String × ScimSimpleAttr)) (key : String) :
    NoEMS (getOptionUrl attrs key) := by
  unfold getOptionUrl
  split <;> (try split) <;> first | exact noEMS_ok _ | exact noEMS_error (by simp)

/-- getOptionBool raises only InvalidAttribute. -/
theorem noEMS_getOptionBool (attrs : List (String × ScimSimpleAttr)) (key : String) :
    NoEMS (getOptionBool attrs key) := by
  unfold getOptionBool
  split <;> first | exact noEMS_ok _ | exact noEMS_error (by simp)

/-- getSingleString raises only MissingRequiredAttribute or
InvalidAttribute. -/
theorem noEMS_getSingleString (attrs : List (String × ScimAttr)) (key : String) :
    NoEMS (getSingleString attrs key) := by
  unfold getSingleString
  split <;> first | exact noEMS_ok _ | exact noEMS_error (by simp)

/-- getSingleBool raises only MissingRequiredAttribute or
InvalidAttribute. -/
theorem noEMS_getSingleBool (attrs : List (String × ScimAttr)) (key : String) :
    NoEMS (getSingleBool attrs key) := by
  unfold getSingleBool
  split <;> first | exact noEMS_ok _ | exact noEMS_error (by simp)

/-- getOptionSingleString raises only InvalidAttribute. -/
theorem noEMS_getOptionSingleString (attrs : List (String × ScimAttr)) (key : String) :
    NoEMS (getOptionSingleString attrs key) := by
  unfold getOptionSingleString
  split <;> first | exact noEMS_ok _ | exact noEMS_error (by simp)

/-- getOptionSingleUrl raises only InvalidAttribute. -/
theorem noEMS_getOptionSingleUrl (attrs : List (String × ScimAttr)) (key : String) :
    NoEMS (getOptionSingleUrl attrs key) := by
  unfold getOptionSingleUrl
  split <;> (try split) <;> first | exact noEMS_ok _ | exact noEMS_error (by simp)

/-- tryFromOptionSingleString inherits the conversion's error kinds plus
InvalidAttribute. -/
theorem noEMS_tryFromOptionSingleString {conv : String → Except ScimError τ}
    (hconv : ∀ s, NoEMS (conv s)) (attrs : List (String × ScimAttr)) (key : String) :
    NoEMS (tryFromOptionSingleString conv attrs key) := by
  unfold tryFromOptionSingleString
  split <;> first
    | exact noEMS_ok _
    | exact noEMS_map (hconv _) _
    | exact noEMS_error (by simp)

/-- getOptionSingleComplex inherits the decoder's error kinds plus
InvalidAttribute. -/
theorem noEMS_getOptionSingleComplex {conv : ScimComplexAttr → Except ScimError τ}
    (hconv : ∀ x, NoEMS (conv x)) (attrs : List (String × ScimAttr)) (key : String) :
    NoEMS (getOptionSingleComplex conv attrs key) := by
  unfold getOptionSingleComplex
  split <;> first
    | exact noEMS_ok _
    | exact noEMS_map (hconv _) _
    | exact noEMS_error (by simp)

/-- getOptionMultiComplex inherits the element decoder's error kinds
plus InvalidAttribute. -/
theorem noEMS_getOptionMultiComplex {conv : ScimComplexAttr → Except ScimError τ}
    (hconv : ∀ x, NoEMS (conv x)) (attrs : List (String × ScimAttr)) (key : String) :
    NoEMS (getOptionMultiComplex conv attrs key) := by
  unfold getOptionMultiComplex
  split <;> first
    | exact noEMS_ok _
    | exact noEMS_map (noEMS_collect hconv _) _
    | exact noEMS_error (by simp)

/-- Locale parsing raises only UnknownLocale. -/
theorem noEMS_locale_tryFrom (s : String) : NoEMS (Locale.tryFrom s) := by
  unfold Locale.tryFrom
  split_ifs <;> first | exact noEMS_ok _ | exact noEMS_error (by simp)

/-- Timezone parsing raises only UnknownLocale. -/
theorem noEMS_timezone_tryFrom (s : String) : NoEMS (Timezone.tryFrom s) := by
  unfold Timezone.tryFrom
  split_ifs <;> first | exact noEMS_ok _ | exact noEMS_error (by simp)

/-- Name decoding never raises EntryMissingSchema. -/
theorem noEMS_name_tryFrom (sca : ScimComplexAttr) : NoEMS (Name.tryFrom sca) := by
  unfold Name.tryFrom
  apply noEMS_bind (noEMS_getOptionString _ _)
  rintro ⟨f1, a1⟩
  apply noEMS_bind (noEMS_getOptionString _ _)
  rintro ⟨f2, a2⟩
  apply noEMS_bind (noEMS_getOptionString _ _)
  rintro ⟨f3, a3⟩
  apply noEMS_bind (noEMS_getOptionString _ _)
  rintro ⟨f4, a4⟩
  apply noEMS_bind (noEMS_getOptionString _ _)
  rintro ⟨f5, a5⟩
  apply noEMS_bind (noEMS_getOptionString _ _)
  rintro ⟨f6, a6⟩
  exact noEMS_ok _

/-- MultiValueAttr decoding never raises EntryMissingSchema. -/
theorem noEMS_mva_tryFrom (sca : ScimComplexAttr) : NoEMS (MultiValueAttr.tryFrom sca) := by
  unfold MultiValueAttr.tryFrom
  apply noEMS_bind (noEMS_getOptionString _ _)
  rintro ⟨f1, a1⟩
  apply noEMS_bind (noEMS_getOptionBool _ _)
  rintro ⟨f2, a2⟩
  apply noEMS_bind (noEMS_getOptionString _ _)
  rintro ⟨f3, a3⟩
  apply noEMS_bind (noEMS_getString _ _)
  rintro ⟨f4, a4⟩
  apply noEMS_bind (noEMS_getOptionUrl _ _)
  rintro ⟨f5, a5⟩
  exact noEMS_ok _

/-- Photo decoding never raises EntryMissingSchema. -/
theorem noEMS_photo_tryFrom (sca : ScimComplexAttr) : NoEMS (Photo.tryFrom sca) := by
  unfold Photo.tryFrom
  apply noEMS_bind (noEMS_mva_tryFrom _)
  intro mva
  split <;> first | exact noEMS_ok _ | exact noEMS_error (by simp)

/-- Binary decoding never raises EntryMissingSchema. -/
theorem noEMS_binary_tryFrom (sca : ScimComplexAttr) : NoEMS (Binary.tryFrom sca) := by
  unfold Binary.tryFrom
  apply noEMS_bind (noEMS_mva_tryFrom _)
  intro mva
  split <;> first | exact noEMS_ok _ | exact noEMS_error (by simp)

/-- Address decoding never raises EntryMissingSchema. -/
theorem noEMS_address_tryFrom (sca : ScimComplexAttr) : NoEMS (Address.tryFrom sca) := by
  unfold Address.tryFrom
  apply noEMS_bind (noEMS_getOptionString _ _)
  rintro ⟨f1, a1⟩
  apply noEMS_bind (noEMS_getOptionBool _ _)
  rintro ⟨f2, a2⟩
  apply noEMS_bind (noEMS_getOptionString _ _)
  rintro ⟨f3, a3⟩
  apply noEMS_bind (noEMS_getOptionString _ _)
  rintro ⟨f4, a4⟩
  apply noEMS_bind (noEMS_getOptionString _ _)
  rintro ⟨f5, a5⟩
  apply noEMS_bind (noEMS_getOptionString _ _)
  rintro ⟨f6, a6⟩
  apply noEMS_bind (noEMS_getOptionString _ _)
  rintro ⟨f7, a7⟩
  apply noEMS_bind (noEMS_getOptionString _ _)
  rintro ⟨f8, a8⟩
  exact noEMS_ok _

/-- Group-membership decoding never raises EntryMissingSchema. -/
theorem noEMS_groupMembership_tryFrom (sca : ScimComplexAttr) :
    NoEMS (GroupMembership.tryFrom sca) := by
  unfold GroupMembership.tryFrom
  apply noEMS_bind (noEMS_getOptionString _ _)
  rintro ⟨f1, a1⟩
  apply noEMS_bind (noEMS_getString _ _)
  rintro ⟨f2, a2⟩
  apply noEMS_bind (noEMS_getUuid _ _)
  rintro ⟨f3, a3⟩
  apply noEMS_bind (noEMS_getUrl _ _)
  rintro ⟨f4, a4⟩
  exact noEMS_ok _

/-- Member decoding never raises EntryMissingSchema. -/
theorem noEMS_member_tryFrom (sca : ScimComplexAttr) : NoEMS (Member.tryFrom sca) := by
  unfold Member.tryFrom
  apply noEMS_bind (noEMS_getString _ _)
  rintro ⟨f1, a1⟩
  apply noEMS_bind (noEMS_getUuid _ _)
  rintro ⟨f2, a2⟩
  apply noEMS_bind (noEMS_getUrl _ _)
  rintro ⟨f3, a3⟩
  exact noEMS_ok _

/-- The User field-extraction chain never raises EntryMissingSchema. -/
theorem noEMS_user_fieldsFrom (e : ScimEntry) : NoEMS (User.fieldsFrom e) := by
  unfold User.fieldsFrom
  apply noEMS_bind (noEMS_getSingleString _ _)
  rintro ⟨userName, a0⟩
  apply noEMS_bind (noEMS_getOptionSingleComplex noEMS_name_tryFrom _ _)
  rintro ⟨name, a1⟩
  apply noEMS_bind (noEMS_getOptionSingleString _ _)
  rintro ⟨displayName, a2⟩
  apply noEMS_bind (noEMS_getOptionSingleString _ _)
  rintro ⟨nickName, a3⟩
  apply noEMS_bind (noEMS_getOptionSingleUrl _ _)
  rintro ⟨profileUrl, a4⟩
  apply noEMS_bind (noEMS_getOptionSingleString _ _)
  rintro ⟨title, a5⟩
  apply noEMS_bind (noEMS_getOptionSingleString _ _)
  rintro ⟨userType, a6⟩
  apply noEMS_bind (noEMS_tryFromOptionSingleString noEMS_locale_tryFrom _ _)
  rintro ⟨preferredLanguage, a7⟩
  apply noEMS_bind (noEMS_tryFromOptionSingleString noEMS_locale_tryFrom _ _)
  rintro ⟨locale, a8⟩
  apply noEMS_bind (noEMS_tryFromOptionSingleString noEMS_timezone_tryFrom _ _)
  rintro ⟨timezone, a9⟩
  apply noEMS_bind (noEMS_getSingleBool _ _)
  rintro ⟨active, a10⟩
  apply noEMS_bind (noEMS_getOptionSingleString _ _)
  rintro ⟨password, a11⟩
  apply noEMS_bind (noEMS_getOptionMultiComplex noEMS_mva_tryFrom _ _)
  rintro ⟨emails, a12⟩
  apply noEMS_bind (noEMS_getOptionMultiComplex noEMS_mva_tryFrom _ _)
  rintro ⟨ims, a13⟩
  apply noEMS_bind (noEMS_getOptionMultiComplex noEMS_mva_tryFrom _ _)
  rintro ⟨phoneNumbers, a14⟩
  apply noEMS_bind (noEMS_getOptionMultiComplex noEMS_photo_tryFrom _ _)
  rintro ⟨photos, a15⟩
  apply noEMS_bind (noEMS_getOptionMultiComplex noEMS_address_tryFrom _ _)
  rintro ⟨addresses, a16⟩
  apply noEMS_bind (noEMS_getOptionMultiComplex noEMS_groupMembership_tryFrom _ _)
  rintro ⟨groups, a17⟩
  apply noEMS_bind (noEMS_getOptionMultiComplex noEMS_mva_tryFrom _ _)
  rintro ⟨entitlements, a18⟩
  apply noEMS_bind (noEMS_getOptionMultiComplex noEMS_mva_tryFrom _ _)
  rintro ⟨roles, a19⟩
  apply noEMS_bind (noEMS_getOptionMultiComplex noEMS_binary_tryFrom _ _)
  rintro ⟨x509certificates, a20⟩
  exact noEMS_ok _

/-- The Group field-extraction chain never raises EntryMissingSchema. -/
theorem noEMS_group_fieldsFrom (e : ScimEntry) : NoEMS (Group.fieldsFrom e) := by
  unfold Group.fieldsFrom
  apply noEMS_bind (noEMS_getSingleString _ _)
  rintro ⟨displayName, a0⟩
  apply noEMS_bind (noEMS_getOptionMultiComplex noEMS_member_tryFrom _ _)
  rintro ⟨members, a1⟩
  exact noEMS_ok _

/-- C6: when an Entry's schemas list lacks the URN expected by the
target resource, decoding fails EntryMissingSchema regardless of
its other attributes; when the URN appears anywhere in the list the
schema check passes, so the decode never fails EntryMissingSchema. -/
theorem schema_enforcement :
    (∀ e : ScimEntry, e.schemas.any (fun i => i = SCIM_SCHEMA_USER) = false →
      User.tryFrom e = .error .EntryMissingSchema) ∧
    (∀ e : ScimEntry, e.schemas.any (fun i => i = SCIM_SCHEMA_USER) = true →
      User.tryFrom e ≠ .error .EntryMissingSchema) ∧
    (∀ e : ScimEntry, e.schemas.any (fun i => i = SCIM_SCHEMA_GROUP) = false →
      Group.tryFrom e = .error .EntryMissingSchema) ∧
    (∀ e : ScimEntry, e.schemas.any (fun i => i = SCIM_SCHEMA_GROUP) = true →
      Group.tryFrom e ≠ .error .EntryMissingSchema) := by
  refine ⟨?_, ?_, ?_, ?_⟩
  · intro e h
    simp [User.tryFrom, User.tryFromAux, h, Except.map]
  · intro e h
    have hn := noEMS_map (noEMS_user_fieldsFrom e) (Prod.fst)
    simpa [User.tryFrom, User.tryFromAux, h, NoEMS] using hn
  · intro e h
    simp [Group.tryFrom, Group.tryFromAux, h, Except.map]
  · intro e h
    have hn := noEMS_map (noEMS_group_fieldsFrom e) (Prod.fst)
    simpa [Group.tryFrom, Group.tryFromAux, h, NoEMS] using hn

/-- A concrete Entry whose schemas list lacks the User URN. -/
def entryWrongSchema : ScimEntry :=
  { schemas := ["urn:ietf:params:scim:schemas:core:2.0:Group"], id := "a"
    externalId := none, meta := none, attrs := [] }

/-- A concrete Entry whose schemas list holds the User URN (decode still
fails later on the missing required userName, but not with
EntryMissingSchema). -/
def entryRightSchema : ScimEntry :=
  { schemas := ["urn:x", SCIM_SCHEMA_USER], id := "a"
    externalId := none, meta := none, attrs := [] }

/-- C6 witness: the wrong-schema Entry fails EntryMissingSchema and the
right-schema Entry does not. -/
theorem schema_enforcement_witness :
    User.tryFrom entryWrongSchema = .error .EntryMissingSchema ∧
    User.tryFrom entryRightSchema ≠ .error .EntryMissingSchema :=
  ⟨schema_enforcement.1 entryWrongSchema (by decide),
   schema_enforcement.2.1 entryRightSchema (by decide)⟩

/-- Removing an absent key leaves the map unchanged. -/
theorem lookupRemove_none {attrs : List (String × α)} {key : String}
    (h : (lookupRemove key attrs).1 = none) : (lookupRemove key attrs).2 = attrs := by
  induction attrs with
  | nil => rfl
  | cons kv rest ih =>
    obtain ⟨k, v⟩ := kv
    by_cases hk : k = key
    · simp [lookupRemove, hk] at h
    · simp only [lookupRemove, if_neg hk] at h ⊢
      simpa using ih (by simpa using h)

/-- C7: a required field's absent key fails MissingRequiredAttribute
(via get_single_string and get_single_bool, and through the whole User
decode for userName, and for active on an otherwise-minimal entry); an
absent optional field decodes to None or the empty list with the map
untouched and no error. -/
theorem required_optional_enforcement :
    (∀ (attrs : List (String × ScimAttr)) key, (lookupRemove key attrs).1 = none →
      getSingleString attrs key = .error .MissingRequiredAttribute) ∧
    (∀ (attrs : List (String × ScimAttr)) key, (lookupRemove key attrs).1 = none →
      getSingleBool attrs key = .error .MissingRequiredAttribute) ∧
    (∀ (attrs : List (String × ScimAttr)) key, (lookupRemove key attrs).1 = none →
      getOptionSingleString attrs key = .ok (none, attrs)) ∧
    (∀ (τ : Type) (conv : ScimComplexAttr → Except ScimError τ)
      (attrs : List (String × ScimAttr)) key, (lookupRemove key attrs).1 = none →
      getOptionSingleComplex conv attrs key = .ok (none, attrs)) ∧
    (∀ (τ : Type) (conv : ScimComplexAttr → Except ScimError τ)
      (attrs : List (String × ScimAttr)) key, (lookupRemove key attrs).1 = none →
      getOptionMultiComplex conv attrs key = .ok ([], attrs)) ∧
    (∀ e : ScimEntry, e.schemas.any (fun i => i = SCIM_SCHEMA_USER) = true →
      (lookupRemove "userName" e.attrs).1 = none →
      User.tryFrom e = .error .MissingRequiredAttribute) ∧
    (∀ (s idv : String) (ext : Option String) (om : Option ScimMeta),
      User.tryFrom
        { schemas := [SCIM_SCHEMA_USER], id := idv, externalId := ext,
          meta := om, attrs := [("userName", .SingleSimple (.string s))] } =
      .error .MissingRequiredAttribute) := by
  have ha : ∀ (attrs : List (String × ScimAttr)) key, (lookupRemove key attrs).1 = none →
      getSingleString attrs key = .error .MissingRequiredAttribute := by
    intro attrs key h
    rcases hlr : lookupRemove key attrs with ⟨o, rest⟩
    rw [hlr] at h
    simp only at h
    subst h
    simp [getSingleString, hlr]
  refine ⟨ha, ?_, ?_, ?_, ?_, ?_, ?_⟩
  · intro attrs key h
    rcases hlr : lookupRemove key attrs with ⟨o, rest⟩
    rw [hlr] at h
    simp only at h
    subst h
    simp [getSingleBool, hlr]
  · intro attrs key h
    have h2 := lookupRemove_none h
    rcases hlr : lookupRemove key attrs with ⟨o, rest⟩
    rw [hlr] at h h2
    simp only at h h2
    subst h
    subst h2
    simp [getOptionSingleString, hlr]
  · intro τ conv attrs key h
    have h2 := lookupRemove_none h
    rcases hlr : lookupRemove key attrs with ⟨o, rest⟩
    rw [hlr] at h h2
    simp only at h h2
    subst h
    subst h2
    simp [getOptionSingleComplex, hlr]
  · intro τ conv attrs key h
    have h2 := lookupRemove_none h
    rcases hlr : lookupRemove key attrs with ⟨o, rest⟩
    rw [hlr] at h h2
    simp only at h h2
    subst h
    subst h2
    simp [getOptionMultiComplex, hlr]
  · intro e hs h
    have hu := ha e.attrs "userName" h
    simp [User.tryFrom, User.tryFromAux, hs]
    unfold User.fieldsFrom
    rw [hu]
    simp [Bind.bind, Except.bind, Except.map]
  · intro s idv ext meta
    rfl

/-- C7 witness: the combinator-level parts at the empty map, the whole
User decode missing userName, and the minimal entry missing active. -/
theorem required_optional_enforcement_witness :
    (getSingleString [] "userName" = .error .MissingRequiredAttribute) ∧
    (getOptionSingleString [] "displayName" = .ok (none, [])) ∧
    (getOptionMultiComplex MultiValueAttr.tryFrom [] "emails" = .ok ([], [])) ∧
    (User.tryFrom entryRightSchema = .error .MissingRequiredAttribute) ∧
    (User.tryFrom
      { schemas := [SCIM_SCHEMA_USER], id := "a", externalId := none,
        meta := none, attrs := [("userName", .SingleSimple (.string "bjensen"))] } =
      .error .MissingRequiredAttribute) :=
  ⟨required_optional_enforcement.1 [] "userName" rfl,
   required_optional_enforcement.2.2.1 [] "displayName" rfl,
   required_optional_enforcement.2.2.2.2.1 _ MultiValueAttr.tryFrom [] "emails" rfl,
   required_optional_enforcement.2.2.2.2.2.1 entryRightSchema (by decide) rfl,
   required_optional_enforcement.2.2.2.2.2.2 "bjensen" "a" none none⟩

/-- C10: a present list-valued attribute key whose value is any variant
other than MultiComplex — including a SingleComplex holding one
well-formed object — fails InvalidAttribute; a single object is never
promoted to a one-element list. -/
theorem multi_list_requires_multicomplex :
    ∀ (τ : Type) (conv : ScimComplexAttr → Except ScimError τ)
      (attrs : List (String × ScimAttr)) (key : String) (v : ScimAttr),
      (lookupRemove key attrs).1 = some v →
      (∀ l, v ≠ .MultiComplex l) →
      getOptionMultiComplex conv attrs key = .error .InvalidAttribute := by
  intro τ conv attrs key v h hv
  rcases hlr : lookupRemove key attrs with ⟨o, rest⟩
  rw [hlr] at h
  simp only at h
  subst h
  cases v with
  | MultiComplex l => exact absurd rfl (hv l)
  | SingleSimple a => simp [getOptionMultiComplex, hlr]
  | SingleComplex a => simp [getOptionMultiComplex, hlr]
  | MultiSimple l => simp [getOptionMultiComplex, hlr]

/-- C10 witness: a SingleComplex under the emails key fails
InvalidAttribute instead of becoming a one-element list. -/
theorem multi_list_requires_multicomplex_witness :
    getOptionMultiComplex MultiValueAttr.tryFrom
      [("emails", .SingleComplex ⟨[("value", .string "a")]⟩)] "emails" =
      .error .InvalidAttribute :=
  multi_list_requires_multicomplex _ MultiValueAttr.tryFrom
    [("emails", .SingleComplex ⟨[("value", .string "a")]⟩)] "emails"
    (.SingleComplex ⟨[("value", .string "a")]⟩) rfl
    (fun _ h => ScimAttr.noConfusion h)

/-- C3 (code bug evaluation): an unrecognized timezone fails with
UnknownLocale — not the UnknownTimezone declared in error.rs and named
by the spec — while the locale side and both recognized-value round
trips behave as the claim states. -/
theorem timezone_unknown_error_kind :
    (Timezone.tryFrom "Europe/Berlin" = .error .UnknownLocale) ∧
    (Timezone.tryFrom "Europe/Berlin" ≠ .error .UnknownTimezone) ∧
    (Timezone.tryFrom "Australia/Brisbane" = .ok .Australia_Brisbane) ∧
    (Timezone.display .Australia_Brisbane = "Australia/Brisbane") ∧
    (Locale.tryFrom "xx-XX" = .error .UnknownLocale) ∧
    (Locale.tryFrom "en-AU" = .ok .en_AU) ∧
    (Locale.display .en_AU = "en-AU") := by
  refine ⟨rfl, ?_, rfl, rfl, rfl, rfl, rfl⟩
  intro h
  have h2 : Except.error (α := Timezone) ScimError.UnknownLocale =
      Except.error ScimError.UnknownTimezone := h
  simp at h2

/-- C1 failing input: an otherwise-valid User entry carrying an
addresses attribute. -/
def userEntryWithAddresses : ScimEntry :=
  { schemas := [SCIM_SCHEMA_USER], id := "u1", externalId := none, meta := none,
    attrs := [("active", .SingleSimple (.bool true)),
              ("addresses", .MultiComplex [⟨[("formatted", .string "A St")]⟩]),
              ("userName", .SingleSimple (.string "bjensen"))] }

/-- What decode-then-encode actually produces for the entry above: the
addresses attribute is gone. -/
def userEntryWithAddressesRT : ScimEntry :=
  { schemas := [SCIM_SCHEMA_USER], id := "u1", externalId := none, meta := none,
    attrs := [("active", .SingleSimple (.bool true)),
              ("userName", .SingleSimple (.string "bjensen"))] }

/-- C1 second failing input: an otherwise-valid User entry carrying an
x509Certificates attribute. -/
def userEntryWithCerts : ScimEntry :=
  { schemas := [SCIM_SCHEMA_USER], id := "u1", externalId := none, meta := none,
    attrs := [("active", .SingleSimple (.bool true)),
              ("userName", .SingleSimple (.string "bjensen")),
              ("x509Certificates", .MultiComplex [⟨[("value", .string "MIIDQ")]⟩])] }

/-- What decode-then-encode actually produces for the certificate entry:
the attribute comes back under the differently-cased key
x509certificates. -/
def userEntryWithCertsRT : ScimEntry :=
  { schemas := [SCIM_SCHEMA_USER], id := "u1", externalId := none, meta := none,
    attrs := [("active", .SingleSimple (.bool true)),
              ("userName", .SingleSimple (.string "bjensen")),
              ("x509certificates", .MultiComplex [⟨[("value", .string "MIIDQ")]⟩])] }

/-- C1 (code bug evaluation): the round-trip law fails on the code. A
present non-empty addresses attribute is dropped by decode-then-encode
(decode reads the addresses field from the already-consumed photos key,
so the decoded list is empty and encode omits it), and a present
x509Certificates attribute comes back under the differently-cased key
x509certificates — neither is an absent-optional omission nor schema
canonicalization. -/
theorem user_roundtrip_divergence :
    ((User.tryFrom userEntryWithAddresses).map User.intoEntry =
      .ok userEntryWithAddressesRT) ∧
    ((lookupRemove "addresses" userEntryWithAddresses.attrs).1 =
      some (.MultiComplex [⟨[("formatted", .string "A St")]⟩])) ∧
    ((lookupRemove "addresses" userEntryWithAddressesRT.attrs).1 = none) ∧
    ((User.tryFrom userEntryWithCerts).map User.intoEntry =
      .ok userEntryWithCertsRT) ∧
    ((lookupRemove "x509Certificates" userEntryWithCerts.attrs).1 ≠ none) ∧
    ((lookupRemove "x509Certificates" userEntryWithCertsRT.attrs).1 = none) ∧
    ((lookupRemove "x509certificates" userEntryWithCertsRT.attrs).1 ≠ none) := by
  refine ⟨rfl, rfl, rfl, rfl, by decide, rfl, by decide⟩

/-- C2 failing input: an otherwise-valid User entry carrying an
addresses attribute. -/
def userEntryAddrConsume : ScimEntry :=
  { schemas := [SCIM_SCHEMA_USER], id := "u2", externalId := none, meta := none,
    attrs := [("active", .SingleSimple (.bool true)),
              ("addresses", .MultiComplex [⟨[("formatted", .string "B Ave")]⟩]),
              ("userName", .SingleSimple (.string "k"))] }

/-- C2 (code bug evaluation): after a successful decode of an entry with
an addresses attribute, that key is still in the residual attribute map
and the addresses field was not extracted from it (the decoded list is
empty, since the source reads the field from the already-removed photos
key). -/
theorem user_addresses_not_consumed :
    (User.tryFromAux userEntryAddrConsume).map
      (fun p => (p.1.addresses, (lookupRemove "addresses" p.2).1)) =
    .ok ([], some (.MultiComplex [⟨[("formatted", .string "B Ave")]⟩])) := rfl

/-- C8: the attribute-path grammar accepts abcd and abcd.abcd with the
stated ASTs and rejects abcd.0, abcd._, abcd,0 and .abcd; the filter
grammar parses "abcd pr" to Present and "abcd eq dcba" to Equal with the
string value dcba; a failed parse returns the structured syntax error
(the Except type carries no partial AST). -/
theorem filter_grammar_cases :
    (parseAttrPath "abcd" = .ok { a := "abcd", s := none }) ∧
    (parseAttrPath "abcd.abcd" = .ok { a := "abcd", s := some "abcd" }) ∧
    (parseAttrPath "abcd.0" = .error .syntaxViolation) ∧
    (parseAttrPath "abcd._" = .error .syntaxViolation) ∧
    (parseAttrPath "abcd,0" = .error .syntaxViolation) ∧
    (parseAttrPath ".abcd" = .error .syntaxViolation) ∧
    (parseScimFilter "abcd pr" = .ok (.Present { a := "abcd", s := none })) ∧
    (parseScimFilter "abcd eq dcba" =
      .ok (.Equal { a := "abcd", s := none } (.str "dcba"))) :=
  ⟨rfl, rfl, rfl, rfl, rfl, rfl, rfl, rfl⟩

end KanidmScim
